import Mathlib

/-!
A verification development for the OPL2/OPLL FM-synthesis core
(`Components/OPL2`): a shallow embedding of the `Operator` envelope / phase
engine (`Implementation/Operator.cpp`) and of the OPLL chip front-end
(`OPL2.cpp`), together with theorems about the envelope state machine, the
output-composition laws, the register-write protocol and the construction
precondition.

Conventions of the embedding:
* C / C++ `int` fields are `Int`; unsigned accumulator wraparound is an
  explicit `% 2 ^ 32`.
* Non-negative `int` arithmetic written with shifts/masks in the source is
  rendered arithmetically where the operand is a power of two:
  `x >> k` as `x / 2^k` (identical on non-negative values, and `Int`
  division here is floor division, which is exactly the arithmetic shift),
  `x & (2^k - 1)` as `x % 2^k`, `x << k` as `x * 2^k`.  Each site carries a
  comment naming the source expression.
* A C++ computation whose behaviour is undefined (a shift by a negative
  amount) is modelled by `Option`, with `none` for the undefined case.
-/

namespace Yamaha.OPL

/-- The (logsin, sign) pair produced by the log-sine table
(`negative_log_sin` in `Tables.h`) and stored in
`OperatorState::attenuation`. -/
structure LogSign where
  logsin : Int
  sign : Int
deriving DecidableEq, Repr

/-- `OperatorState::ADSRPhase`. -/
inductive ADSRPhase where
  | Attack
  | Decay
  | Sustain
  | Release
deriving DecidableEq, Repr

/-- `OperatorOverrides`: the per-channel volume / sustain override used by
the OPLL personality. -/
structure OperatorOverrides where
  attenuation : Nat
  use_sustain_level : Bool
deriving DecidableEq, Repr

/-- The static per-voice configuration of `Operator`, written only by the
register-byte setters below. -/
structure Operator where
  waveform : Nat
  attack_rate : Nat
  decay_rate : Nat
  sustain_level : Nat
  release_rate : Nat
  level_key_scaling : Nat
  attenuation : Nat
  apply_amplitude_modulation : Bool
  apply_vibrato : Bool
  use_sustain_level : Bool
  key_scaling_rate : Bool
  frequency_multiple : Nat
deriving DecidableEq, Repr

/-- The mutable per-voice runtime record `OperatorState`. -/
structure OperatorState where
  raw_phase : Nat
  attenuation : LogSign
  adsr_phase : ADSRPhase
  adsr_attenuation : Int
  time_in_phase : Nat
  last_key_on : Bool
deriving DecidableEq, Repr

/-- `Operator::set_attack_decay`: high nibble shifted into a 0–60 attack
rate, low nibble into a 0–60 decay rate. -/
def Operator.set_attack_decay (op : Operator) (value : Nat) : Operator :=
  { op with
    attack_rate := (value &&& 0xf0) >>> 2,
    decay_rate := (value &&& 0x0f) <<< 2 }

/-- `Operator::set_sustain_release`. -/
def Operator.set_sustain_release (op : Operator) (value : Nat) : Operator :=
  { op with
    sustain_level := (value &&& 0xf0) >>> 4,
    release_rate := (value &&& 0x0f) <<< 2 }

/-- `Operator::set_scaling_output`. -/
def Operator.set_scaling_output (op : Operator) (value : Nat) : Operator :=
  { op with
    level_key_scaling := value >>> 6,
    attenuation := value &&& 0x3f }

/-- `Operator::set_waveform`. -/
def Operator.set_waveform (op : Operator) (value : Nat) : Operator :=
  { op with waveform := value &&& 3 }

/-- `Operator::set_am_vibrato_hold_sustain_ksr_multiple`. -/
def Operator.set_am_vibrato_hold_sustain_ksr_multiple (op : Operator) (value : Nat) : Operator :=
  { op with
    apply_amplitude_modulation := value &&& 0x80 != 0,
    apply_vibrato := value &&& 0x40 != 0,
    use_sustain_level := value &&& 0x20 != 0,
    key_scaling_rate := value &&& 0x10 != 0,
    frequency_multiple := value &&& 0xf }

/-- `Operator::is_audible`. -/
def Operator.is_audible (op : Operator) (state : OperatorState)
    (overrides : Option OperatorOverrides) : Bool :=
  if state.adsr_phase = ADSRPhase.Release then
    match overrides with
    | some o => if o.attenuation = 0xf then false else state.adsr_attenuation != 511
    | none => if op.attenuation = 0x3f then false else state.adsr_attenuation != 511
  else
    state.adsr_attenuation != 511

/-- The `multipliers` table local to `Operator::update`: the MUL → multiple
table, multiplied by two. -/
def multipliers : List Nat :=
  [1, 2, 4, 6, 8, 10, 12, 14, 16, 18, 20, 20, 24, 24, 30, 30]

/-- The `waveforms` per-quadrant mask table local to `Operator::update`:
sine, half sine, abs sine, pulse sine. -/
def waveforms : List (List Nat) :=
  [[1023, 1023, 1023, 1023],
   [511, 511, 0, 0],
   [511, 511, 511, 511],
   [255, 0, 255, 0]]

/-- `state.raw_phase_ += multipliers[frequency_multiple_] * channel_period << channel_octave`,
with the `int` accumulator's wraparound made explicit as `% 2 ^ 32`. -/
def rawPhaseNext (op : Operator) (raw channel_period channel_octave : Nat) : Nat :=
  (raw + ((multipliers.getD op.frequency_multiple 0) * channel_period) <<< channel_octave) % 2 ^ 32

/-- The per-tick raw-phase increment applied by `Operator::update`. -/
def phaseDelta (op : Operator) (channel_period channel_octave : Nat) : Nat :=
  ((multipliers.getD op.frequency_multiple 0) * channel_period) <<< channel_octave

/-- The folded waveform phase:
`phase = (raw_phase_ >> 12) + phase_offset`, masked by
`waveforms[waveform_][(phase >> 8) & 3]`.  (`(phase >> 8) & 3` is
`(phase >>> 8) % 4`.) -/
def maskedPhase (op : Operator) (raw phase_offset : Nat) : Nat :=
  let phase := (raw >>> 12) + phase_offset
  phase &&& ((waveforms.getD op.waveform []).getD ((phase >>> 8) % 4) 0)

/-- The effective ADSR phase after the key-on logic of `Operator::update`:
key off forces Release, a key-on leading edge forces Attack, otherwise the
stored phase persists. -/
def effectivePhase (state : OperatorState) (key_on : Bool) : ADSRPhase :=
  if !key_on then ADSRPhase.Release
  else if !state.last_key_on then ADSRPhase.Attack
  else state.adsr_phase

/-- The tick-in-phase counter after the key-on logic of `Operator::update`:
reset to 0 on either forced transition, otherwise the stored counter. -/
def effectiveTime (state : OperatorState) (key_on : Bool) : Nat :=
  if !key_on then 0
  else if !state.last_key_on then 0
  else state.time_in_phase

/-- One Attack-phase envelope step, before the terminating-condition check:
`attenuation -= (attenuation >> 2) + 1` every tick when
`attack_rate >= 56`; otherwise
`sample_length = 1 << (14 - (attack_rate >> 2))` and
`attenuation -= (attenuation >> 3) + 1` only on ticks with
`time_in_phase_ & (sample_length - 1) == 0` (i.e. `time % 2^(14 - rate/4) = 0`). -/
def attack_step (attack_rate : Nat) (a : Int) (t : Nat) : Int :=
  if attack_rate ≥ 56 then a - a / 4 - 1
  else if t % 2 ^ (14 - attack_rate / 4) = 0 then a - a / 8 - 1
  else a

/-- One Decay/Release-phase envelope step.  Mirrors the source's
`if(decrease_rate)` guard and `switch(decrease_rate >> 2)`:
case 1 adds 4, case 2 adds 2, and the default case computes
`sample_length = 1 << ((decrease_rate >> 2) - 4)` — undefined behaviour
(`none`) when `decrease_rate >> 2 < 4`, since the shift amount is then
negative — and adds 1 on ticks with `time & (sample_length - 1) == 0`. -/
def decay_release_step (rate : Nat) (a : Int) (t : Nat) : Option Int :=
  if rate = 0 then some a
  else if rate / 4 = 1 then some (a + 4)
  else if rate / 4 = 2 then some (a + 2)
  else if rate / 4 < 4 then none
  else if t % 2 ^ (rate / 4 - 4) = 0 then some (a + 1)
  else some a

/-- The shared Decay/Release envelope logic of `Operator::update`:
apply `decay_release_step` for the governing rate, clamp with
`std::min(·, 511)`, then (from Decay only) when the result has reached
`sustain_level_ << 5` clamp to that value and move to Sustain when a
sustain-hold flag (override or own) is set, else to Release. -/
def decay_release_update (op : Operator) (overrides : Option OperatorOverrides)
    (isDecay : Bool) (a : Int) (t : Nat) : Option (Int × ADSRPhase) :=
  let rate := if isDecay then op.decay_rate else op.release_rate
  (decay_release_step rate a t).map fun a1 =>
    let a2 := min a1 511
    if isDecay ∧ ((op.sustain_level : Int) * 32) ≤ a2 then
      (((op.sustain_level : Int) * 32),
        if ((match overrides with
             | some o => o.use_sustain_level
             | none => false) || op.use_sustain_level) then ADSRPhase.Sustain
        else ADSRPhase.Release)
    else (a2, if isDecay then ADSRPhase.Decay else ADSRPhase.Release)

/-- The envelope step of `Operator::update`, dispatching on the effective
phase.  In Attack, after `attack_step`, the terminating condition
`attack_rate > 60 || attenuation <= 0` clamps the attenuation to 0 and
moves to Decay.  Sustain does nothing. -/
def envelope_update (op : Operator) (overrides : Option OperatorOverrides)
    (phase : ADSRPhase) (a : Int) (t : Nat) : Option (Int × ADSRPhase) :=
  match phase with
  | ADSRPhase.Attack =>
      let a1 := attack_step op.attack_rate a t
      if op.attack_rate > 60 ∨ a1 ≤ 0 then some (0, ADSRPhase.Decay)
      else some (a1, ADSRPhase.Attack)
  | ADSRPhase.Decay => decay_release_update op overrides true a t
  | ADSRPhase.Release => decay_release_update op overrides false a t
  | ADSRPhase.Sustain => some (a, ADSRPhase.Sustain)

/-- `Operator::update`, one synthesis tick, parameterised by the log-sine
table `tbl` (`negative_log_sin`, whose values live in `Tables.h`, outside
the sampled source).  Steps, in source order: raw-phase accumulation,
waveform folding and table lookup, key-on edge logic, the envelope step,
the tick-in-phase counter (reset to 0 when the envelope step changed the
phase, incremented otherwise), and the final output composition
(`logsin += adsr + overrides->attenuation << 4` with overrides,
`logsin += (adsr << 3) + (attenuation_ << 5)` without). -/
def Operator.update (tbl : Nat → LogSign) (op : Operator) (state : OperatorState)
    (key_on : Bool) (channel_period channel_octave phase_offset : Nat)
    (overrides : Option OperatorOverrides) : Option OperatorState :=
  let raw := rawPhaseNext op state.raw_phase channel_period channel_octave
  let att0 := tbl (maskedPhase op raw phase_offset)
  let phase1 := effectivePhase state key_on
  let time1 := effectiveTime state key_on
  (envelope_update op overrides phase1 state.adsr_attenuation time1).map fun ap =>
    let time2 := if ap.2 = phase1 then time1 + 1 else 0
    let logsin2 := att0.logsin +
      (match overrides with
       | some o => ap.1 + ((o.attenuation : Int) * 16)
       | none => ap.1 * 8 + ((op.attenuation : Int) * 32))
  { raw_phase := raw,
    attenuation := { logsin := logsin2, sign := att0.sign },
    adsr_phase := ap.2,
    adsr_attenuation := ap.1,
    time_in_phase := time2,
    last_key_on := key_on }

/-- Iterated ticks of `Operator.update` with fixed inputs. -/
def updateIterate (tbl : Nat → LogSign) (op : Operator) (key_on : Bool)
    (channel_period channel_octave phase_offset : Nat)
    (overrides : Option OperatorOverrides) :
    Nat → OperatorState → Option OperatorState
  | 0, s => some s
  | n + 1, s =>
      (Operator.update tbl op s key_on channel_period channel_octave phase_offset
        overrides).bind
        (updateIterate tbl op key_on channel_period channel_octave phase_offset overrides n)

/-- A fixed all-zero operator configuration, used as the base point of
concrete evaluations (every field is then driven through the setters). -/
def testOperator : Operator :=
  { waveform := 0, attack_rate := 0, decay_rate := 0, sustain_level := 0,
    release_rate := 0, level_key_scaling := 0, attenuation := 0,
    apply_amplitude_modulation := false, apply_vibrato := false,
    use_sustain_level := false, key_scaling_rate := false, frequency_multiple := 0 }

/-- A trivial stand-in log-sine table for concrete evaluations; every
theorem below quantifies over the table. -/
def testTable : Nat → LogSign := fun _ => { logsin := 7, sign := 1 }

/-- A concrete Decay-phase state used by witnesses. -/
def decayState10 : OperatorState :=
  { raw_phase := 0, attenuation := { logsin := 0, sign := 1 },
    adsr_phase := ADSRPhase.Decay, adsr_attenuation := 10,
    time_in_phase := 0, last_key_on := true }

/-- The OPLL channel record: the channel-level state touched by
`OPLL::write_register` — the two frequency register bytes, the per-channel
overrides, and the modulator operator slot (stored as an index into the
operator array; the carrier is implicitly the next slot). -/
structure OPLLChannel where
  frequency_low : Nat
  frequency_octave_key : Nat
  overrides : OperatorOverrides
  modulator : Nat
deriving DecidableEq, Repr

/-- Modelled from the spec: `Channel.hpp` is not under `src/`; per §3 the
channel frequency state is written atomically from a single register byte,
so `set_frequency_low` stores the written byte whole. -/
def OPLLChannel.set_frequency_low (c : OPLLChannel) (value : Nat) : OPLLChannel :=
  { c with frequency_low := value }

/-- Modelled from the spec: `Channel.hpp` is not under `src/`; per §4.2 the
9-bit-frequency / octave / key-on byte is decoded from this one register
byte, stored here whole. -/
def OPLLChannel.set_9bit_frequency_octave_key_on (c : OPLLChannel) (value : Nat) :
    OPLLChannel :=
  { c with frequency_octave_key := value }

/-- The OPLL chip state owned by `OPLL`: 38 operators (indices ≥ 38 unused),
9 channels, the 8 custom-instrument bytes, the rhythm override array, the
rhythm-control register and the construction-time audio divider. -/
structure OPLL where
  operators : Nat → Operator
  channels : Nat → OPLLChannel
  custom_instrument : Nat → Nat
  rhythm_overrides : Nat → OperatorOverrides
  depth_rhythm_control : Nat
  audio_divider : Nat

/-- `OPLL::setup_fixed_instrument`: writes the 8 instrument bytes into the
modulator (slot `2 * number`) and carrier (slot `2 * number + 1`) through
the operator setters, in source order. -/
def OPLL.setup_fixed_instrument (s : OPLL) (number : Nat) (data : Nat → Nat) : OPLL :=
  let modulator :=
    (((((s.operators (number * 2)).set_am_vibrato_hold_sustain_ksr_multiple
      (data 0)).set_scaling_output (data 2)).set_waveform
      ((data 3 >>> 3) &&& 1)).set_attack_decay (data 4)).set_sustain_release (data 6)
  let carrier :=
    ((((s.operators (number * 2 + 1)).set_am_vibrato_hold_sustain_ksr_multiple
      (data 1)).set_waveform ((data 3 >>> 4) &&& 1)).set_attack_decay
      (data 5)).set_sustain_release (data 7)
  { s with operators := fun i =>
      if i = number * 2 then modulator
      else if i = number * 2 + 1 then carrier
      else s.operators i }

/-- The deferred body of `OPLL::write_register`, applied when the queue is
drained: addresses 0–7 store a custom-instrument byte and rebuild
instrument 0 from the custom bytes; address 0xe is the cut-down rhythm
register; otherwise the low nibble selects a channel (> 8 ignored) and the
high nibble dispatches to instrument/volume select (0x30), frequency low
byte (0x10), or sustain/key/octave/frequency byte (0x20); anything else is
ignored. -/
def OPLL.apply_register_write (s : OPLL) (address value : Nat) : OPLL :=
  if address < 8 then
    let ci := fun j => if j = address then value else s.custom_instrument j
    let s1 := { s with custom_instrument := ci }
    s1.setup_fixed_instrument 0 s1.custom_instrument
  else if address = 0xe then
    { s with depth_rhythm_control := value &&& 0x3f }
  else
    let index := address &&& 0xf
    if index > 8 then s
    else
      match address &&& 0xf0 with
      | 0x30 =>
          let ch30 := fun i =>
            if i = index then
              { s.channels index with
                overrides := { (s.channels index).overrides with
                  attenuation := value &&& 0xf },
                modulator := (value >>> 4) * 2 }
            else s.channels i
          let s1 := { s with channels := ch30 }
          if index ≥ 6 then
            let ro := fun j =>
              if j = (index - 6) * 2 then
                { s1.rhythm_overrides j with attenuation := value >>> 4 }
              else if j = (index - 6) * 2 + 1 then
                { s1.rhythm_overrides j with attenuation := value &&& 0xf }
              else s1.rhythm_overrides j
            { s1 with rhythm_overrides := ro }
          else s1
      | 0x10 =>
          let ch10 := fun i =>
            if i = index then (s.channels index).set_frequency_low value
            else s.channels i
          { s with channels := ch10 }
      | 0x20 =>
          let ch20 := fun i =>
            if i = index then
              { (s.channels index).set_9bit_frequency_octave_key_on value with
                overrides := { (s.channels index).overrides with
                  use_sustain_level := value &&& 0x20 != 0 } }
            else s.channels i
          { s with channels := ch20 }
      | _ => s

/-- A default-constructed override record. -/
def OperatorOverrides.init : OperatorOverrides :=
  { attenuation := 0, use_sustain_level := false }

/-- A default-constructed channel. -/
def OPLLChannel.init : OPLLChannel :=
  { frequency_low := 0, frequency_octave_key := 0,
    overrides := OperatorOverrides.init, modulator := 0 }

/-- Modelled from the spec: the 15-instrument OPLL patch table (8 bytes per
instrument, §6) lives outside `src/`; only its shape is known, so its bytes
are left as zeros — no theorem below depends on the values. -/
def opll_patch_set : Nat → Nat := fun _ => 0

/-- Modelled from the spec: the VRC7 variant patch table, likewise outside
`src/`. -/
def vrc7_patch_set : Nat → Nat := fun _ => 0

/-- Modelled from the spec: the three rhythm patches, likewise outside
`src/`. -/
def percussion_patch_set : Nat → Nat := fun _ => 0

/-- The `OPLL` constructor.  The construction precondition
`assert(audio_divider <= 4)` is checked before any state is used (`none` on
violation); then the 15 fixed instruments are installed from the selected
patch set into slots 1–15, the three rhythm patches into slots 16–18, and
every channel's default modulator is operator slot 0. -/
def OPLL.make (audio_divider : Nat) (is_vrc7 : Bool) : Option OPLL :=
  if audio_divider ≤ 4 then
    let base : OPLL :=
      { operators := fun _ => testOperator,
        channels := fun _ => OPLLChannel.init,
        custom_instrument := fun _ => 0,
        rhythm_overrides := fun _ => OperatorOverrides.init,
        depth_rhythm_control := 0,
        audio_divider := audio_divider }
    let patch_set := if is_vrc7 then vrc7_patch_set else opll_patch_set
    let s1 := (List.range 15).foldl
      (fun s c => s.setup_fixed_instrument (c + 1) (fun j => patch_set (c * 8 + j)))
      base
    let s2 := (List.range 3).foldl
      (fun s c => s.setup_fixed_instrument (c + 16)
        (fun j => percussion_patch_set (c * 8 + j)))
      s1
    let chans := fun i =>
      if i < 9 then { s2.channels i with modulator := 0 } else s2.channels i
    some { s2 with channels := chans }
  else
    none

/-- A concrete chip state used by the C8 witness. -/
def testOPLL : OPLL :=
  { operators := fun _ => testOperator, channels := fun _ => OPLLChannel.init,
    custom_instrument := fun _ => 0,
    rhythm_overrides := fun _ => OperatorOverrides.init,
    depth_rhythm_control := 0, audio_divider := 1 }


/-- Any defined Decay/Release step only ever adds to the attenuation, by at
most 4. -/
theorem decay_release_step_le {rate : Nat} {a : Int} {t : Nat} {x : Int}
    (h : decay_release_step rate a t = some x) : a ≤ x ∧ x ≤ a + 4 := by
  unfold decay_release_step at h
  split_ifs at h <;> simp_all <;> omega

/-- A decoder-reachable rate (a multiple of 4, at most 60) other than 12
always gives a defined Decay/Release step. -/
theorem decay_release_step_defined (rate : Nat) (a : Int) (t : Nat)
    (h4 : rate % 4 = 0) (h12 : rate ≠ 12) :
    ∃ x, decay_release_step rate a t = some x := by
  unfold decay_release_step
  split_ifs <;> first
    | exact ⟨_, rfl⟩
    | omega

/-- The Attack step never increases a non-negative attenuation, and
strictly decreases a positive one on ticks where it applies. -/
theorem attack_step_le (attack_rate : Nat) (a : Int) (t : Nat) (h : 0 ≤ a) :
    attack_step attack_rate a t ≤ a ∧
    ((attack_rate ≥ 56 ∨ t % 2 ^ (14 - attack_rate / 4) = 0) → 0 < a →
      attack_step attack_rate a t < a) ∧
    (¬(attack_rate ≥ 56 ∨ t % 2 ^ (14 - attack_rate / 4) = 0) →
      attack_step attack_rate a t = a) := by
  unfold attack_step
  split_ifs <;> simp_all <;> omega

/-- The Decay/Release envelope logic is defined, and keeps the attenuation
inside [0, 511], whenever the underlying step is defined. -/
theorem decay_release_update_range (op : Operator) (overrides : Option OperatorOverrides)
    (isDecay : Bool) (a : Int) (t : Nat)
    (hs : op.sustain_level ≤ 15) (h0 : 0 ≤ a) (h1 : a ≤ 511)
    (hdef : ∃ x, decay_release_step
      (if isDecay then op.decay_rate else op.release_rate) a t = some x) :
    ∃ p, decay_release_update op overrides isDecay a t = some p ∧
      0 ≤ p.1 ∧ p.1 ≤ 511 := by
  obtain ⟨x, hx⟩ := hdef
  rcases decay_release_step_le hx with ⟨hax, _⟩
  unfold decay_release_update
  dsimp only
  rw [hx]
  simp only [Option.map_some']
  split_ifs <;> exact ⟨_, rfl, by omega, by omega⟩

/-- The envelope step is total and keeps the attenuation inside [0, 511],
for every phase, provided the decoded Decay/Release rates avoid the
undefined rate 12 and the decoded sustain level is a nibble. -/
theorem envelope_update_range (op : Operator) (overrides : Option OperatorOverrides)
    (phase : ADSRPhase) (a : Int) (t : Nat)
    (hd4 : op.decay_rate % 4 = 0) (hd12 : op.decay_rate ≠ 12)
    (hr4 : op.release_rate % 4 = 0) (hr12 : op.release_rate ≠ 12)
    (hs : op.sustain_level ≤ 15)
    (h0 : 0 ≤ a) (h1 : a ≤ 511) :
    ∃ p, envelope_update op overrides phase a t = some p ∧ 0 ≤ p.1 ∧ p.1 ≤ 511 := by
  cases phase with
  | Attack =>
      rcases attack_step_le op.attack_rate a t h0 with ⟨hle, _, _⟩
      simp only [envelope_update]
      split_ifs with hif
      · exact ⟨(0, ADSRPhase.Decay), rfl, by omega⟩
      · exact ⟨(attack_step op.attack_rate a t, ADSRPhase.Attack), rfl, by omega, by omega⟩
  | Sustain => exact ⟨(a, ADSRPhase.Sustain), rfl, h0, h1⟩
  | Decay =>
      simp only [envelope_update]
      exact decay_release_update_range op overrides true a t hs h0 h1
        (by simpa using decay_release_step_defined op.decay_rate a t hd4 hd12)
  | Release =>
      simp only [envelope_update]
      exact decay_release_update_range op overrides false a t hs h0 h1
        (by simpa using decay_release_step_defined op.release_rate a t hr4 hr12)

/-- C1, amended.  For every configuration whose Decay/Release rates are
decoder-reachable (multiples of 4, at most 60) and differ from the
undefined rate 12, every sustain nibble, and every state with envelope
attenuation in [0, 511], one call to `Operator::update` is defined and
leaves the envelope attenuation in [0, 511], in every phase and for every
key level. -/
theorem C1_attenuation_range (tbl : Nat → LogSign) (op : Operator)
    (state : OperatorState) (key_on : Bool)
    (channel_period channel_octave phase_offset : Nat)
    (overrides : Option OperatorOverrides)
    (hd4 : op.decay_rate % 4 = 0) (hd12 : op.decay_rate ≠ 12)
    (hr4 : op.release_rate % 4 = 0) (hr12 : op.release_rate ≠ 12)
    (hs : op.sustain_level ≤ 15)
    (h0 : 0 ≤ state.adsr_attenuation) (h1 : state.adsr_attenuation ≤ 511) :
    (Operator.update tbl op state key_on channel_period channel_octave phase_offset
      overrides).isSome = true ∧
    (Operator.update tbl op state key_on channel_period channel_octave phase_offset
      overrides).all
      (fun s => decide (0 ≤ s.adsr_attenuation ∧ s.adsr_attenuation ≤ 511)) = true := by
  obtain ⟨p, hp, hp0, hp1⟩ := envelope_update_range op overrides
    (effectivePhase state key_on) state.adsr_attenuation
    (effectiveTime state key_on) hd4 hd12 hr4 hr12 hs h0 h1
  constructor
  · simp [Operator.update, hp]
  · simp [Operator.update, hp, hp0, hp1]

/-- C1, witness: a concrete Decay-phase tick at decay rate 16 (attack/decay
byte `0x04`) from attenuation 500. -/
theorem C1_attenuation_range_witness :
    ((testOperator.set_attack_decay 0x04).decay_rate % 4 = 0 ∧
      (testOperator.set_attack_decay 0x04).decay_rate ≠ 12) ∧
    (Operator.update testTable (testOperator.set_attack_decay 0x04)
      { raw_phase := 0, attenuation := { logsin := 0, sign := 1 },
        adsr_phase := ADSRPhase.Decay, adsr_attenuation := 500,
        time_in_phase := 0, last_key_on := true } true 1 1 0 none).isSome = true ∧
    (Operator.update testTable (testOperator.set_attack_decay 0x04)
      { raw_phase := 0, attenuation := { logsin := 0, sign := 1 },
        adsr_phase := ADSRPhase.Decay, adsr_attenuation := 500,
        time_in_phase := 0, last_key_on := true } true 1 1 0 none).all
      (fun s => decide (0 ≤ s.adsr_attenuation ∧ s.adsr_attenuation ≤ 511)) = true := by
  refine ⟨⟨by decide, by decide⟩, ?_⟩
  exact C1_attenuation_range testTable (testOperator.set_attack_decay 0x04) _ true 1 1 0 none
    (by decide) (by decide) (by decide) (by decide) (by decide) (by decide) (by decide)

/-- C1, counterexample.  With the decoder-reachable decay rate 12 (attack/decay
byte `0x03`, so the low nibble 3 shifted left by 2) and the envelope in the
Decay phase with the key held, `Operator::update` has no defined result at
all — the source computes `1 << ((12 >> 2) - 4)`, a shift by a negative
amount — so in particular it does not leave the envelope attenuation inside
[0, 511]. -/
theorem C1_rate12_counterexample :
    Operator.update testTable (testOperator.set_attack_decay 0x03)
      { raw_phase := 0, attenuation := { logsin := 0, sign := 1 },
        adsr_phase := ADSRPhase.Decay, adsr_attenuation := 100,
        time_in_phase := 0, last_key_on := true } true 0 0 0 none = none ∧
    (testOperator.set_attack_decay 0x03).decay_rate = 12 := by
  constructor
  · rfl
  · rfl

/-- The observable (phase, tick counter, attenuation) outcome of one
`Operator::update` call is exactly the outcome of the envelope step on the
effective phase and effective time, with the tick counter reset to 0 on a
phase transition and incremented otherwise. -/
theorem update_phase_time_adsr (tbl : Nat → LogSign) (op : Operator)
    (state : OperatorState) (key_on : Bool)
    (channel_period channel_octave phase_offset : Nat)
    (overrides : Option OperatorOverrides) :
    (Operator.update tbl op state key_on channel_period channel_octave phase_offset
      overrides).map (fun s => (s.adsr_phase, s.time_in_phase, s.adsr_attenuation)) =
    (envelope_update op overrides (effectivePhase state key_on) state.adsr_attenuation
      (effectiveTime state key_on)).map
      (fun ap => (ap.2,
        if ap.2 = effectivePhase state key_on then effectiveTime state key_on + 1 else 0,
        ap.1)) := by
  unfold Operator.update
  rcases h : envelope_update op overrides (effectivePhase state key_on)
    state.adsr_attenuation (effectiveTime state key_on) with _ | ⟨a, b⟩ <;> simp [h]

/-- C2, amended.  With the key held on in the Attack phase and a decoded
attack rate (at most 60, so the `attack_rate > 60` alternative never
fires), one call to `Operator::update` is always defined and its observable
outcome is: transition to Decay with attenuation exactly 0 when the
post-step attenuation `attack_step` is ≤ 0, otherwise stay in Attack with
the post-step attenuation; and the post-step attenuation strictly decreases
the (positive) attenuation on applying ticks (every tick when the rate is
≥ 56, ticks whose in-phase time is a multiple of `2 ^ (14 - rate/4)`
otherwise), is unchanged on all other ticks, and never increases. -/
theorem C2_attack_behaviour (tbl : Nat → LogSign) (op : Operator)
    (state : OperatorState) (channel_period channel_octave phase_offset : Nat)
    (overrides : Option OperatorOverrides)
    (hlast : state.last_key_on = true) (hph : state.adsr_phase = ADSRPhase.Attack)
    (har : op.attack_rate ≤ 60) (h0 : 0 ≤ state.adsr_attenuation) :
    (Operator.update tbl op state true channel_period channel_octave phase_offset
      overrides).map (fun s => (s.adsr_phase, s.adsr_attenuation)) =
      some (if attack_step op.attack_rate state.adsr_attenuation state.time_in_phase ≤ 0
        then (ADSRPhase.Decay, 0)
        else (ADSRPhase.Attack,
          attack_step op.attack_rate state.adsr_attenuation state.time_in_phase)) ∧
    ((op.attack_rate ≥ 56 ∨ state.time_in_phase % 2 ^ (14 - op.attack_rate / 4) = 0) →
      0 < state.adsr_attenuation →
      attack_step op.attack_rate state.adsr_attenuation state.time_in_phase <
        state.adsr_attenuation) ∧
    (¬(op.attack_rate ≥ 56 ∨ state.time_in_phase % 2 ^ (14 - op.attack_rate / 4) = 0) →
      attack_step op.attack_rate state.adsr_attenuation state.time_in_phase =
        state.adsr_attenuation) ∧
    attack_step op.attack_rate state.adsr_attenuation state.time_in_phase ≤
      state.adsr_attenuation := by
  have hep : effectivePhase state true = ADSRPhase.Attack := by
    simp [effectivePhase, hlast, hph]
  have het : effectiveTime state true = state.time_in_phase := by
    simp [effectiveTime, hlast]
  rcases attack_step_le op.attack_rate state.adsr_attenuation state.time_in_phase h0
    with ⟨hle, hstrict, hsame⟩
  refine ⟨?_, hstrict, hsame, hle⟩
  have hmap := update_phase_time_adsr tbl op state true channel_period channel_octave
    phase_offset overrides
  rw [hep, het] at hmap
  have hproj : (Operator.update tbl op state true channel_period channel_octave
      phase_offset overrides).map (fun s => (s.adsr_phase, s.adsr_attenuation)) =
      ((Operator.update tbl op state true channel_period channel_octave
        phase_offset overrides).map
        (fun s => (s.adsr_phase, s.time_in_phase, s.adsr_attenuation))).map
        (fun q => (q.1, q.2.2)) := by
    cases Operator.update tbl op state true channel_period channel_octave
      phase_offset overrides <;> rfl
  rw [hproj, hmap]
  by_cases hc : attack_step op.attack_rate state.adsr_attenuation state.time_in_phase ≤ 0
  · rw [if_pos hc]
    simp only [envelope_update, if_pos (Or.inr hc), Option.map_some']
  · have hcond : ¬(op.attack_rate > 60 ∨
        attack_step op.attack_rate state.adsr_attenuation state.time_in_phase ≤ 0) := by
      push_neg
      exact ⟨by omega, by omega⟩
    rw [if_neg hc]
    simp only [envelope_update, if_neg hcond, Option.map_some']

/-- C2, witness: a concrete Attack tick at the decoded attack rate 60
(attack/decay byte `0xf0`) from attenuation 100 on an applying tick. -/
theorem C2_attack_behaviour_witness :
    (Operator.update testTable (testOperator.set_attack_decay 0xf0)
      { raw_phase := 0, attenuation := { logsin := 0, sign := 1 },
        adsr_phase := ADSRPhase.Attack, adsr_attenuation := 100,
        time_in_phase := 0, last_key_on := true } true 0 0 0 none).map
      (fun s => (s.adsr_phase, s.adsr_attenuation)) =
      some (if attack_step (testOperator.set_attack_decay 0xf0).attack_rate 100 0 ≤ 0
        then (ADSRPhase.Decay, 0)
        else (ADSRPhase.Attack,
          attack_step (testOperator.set_attack_decay 0xf0).attack_rate 100 0)) ∧
    (((testOperator.set_attack_decay 0xf0).attack_rate ≥ 56 ∨
        0 % 2 ^ (14 - (testOperator.set_attack_decay 0xf0).attack_rate / 4) = 0) →
      (0 : Int) < 100 →
      attack_step (testOperator.set_attack_decay 0xf0).attack_rate 100 0 < 100) ∧
    (¬((testOperator.set_attack_decay 0xf0).attack_rate ≥ 56 ∨
        0 % 2 ^ (14 - (testOperator.set_attack_decay 0xf0).attack_rate / 4) = 0) →
      attack_step (testOperator.set_attack_decay 0xf0).attack_rate 100 0 = 100) ∧
    attack_step (testOperator.set_attack_decay 0xf0).attack_rate 100 0 ≤ 100 :=
  C2_attack_behaviour testTable (testOperator.set_attack_decay 0xf0)
    { raw_phase := 0, attenuation := { logsin := 0, sign := 1 },
      adsr_phase := ADSRPhase.Attack, adsr_attenuation := 100,
      time_in_phase := 0, last_key_on := true } 0 0 0 none rfl rfl (by decide) (by decide)

/-- C2, counterexample.  With decoded attack rate 0 the Attack step only
applies on ticks whose in-phase time is a multiple of `2 ^ 14`; on tick 1
the attenuation stays at 100 and the phase stays Attack, so one call to
`Operator::update` in the Attack phase does not strictly decrease the
envelope attenuation. -/
theorem C2_no_strict_decrease_counterexample :
    (Operator.update testTable testOperator
      { raw_phase := 0, attenuation := { logsin := 0, sign := 1 },
        adsr_phase := ADSRPhase.Attack, adsr_attenuation := 100,
        time_in_phase := 1, last_key_on := true } true 0 0 0 none).map
      (fun s => (s.adsr_attenuation, s.adsr_phase)) =
      some (100, ADSRPhase.Attack) ∧
    testOperator.attack_rate = 0 := by
  constructor
  · rfl
  · rfl

/-- Lifting a per-outcome attenuation predicate through `Operator.update`. -/
theorem update_all_adsr (tbl : Nat → LogSign) (op : Operator) (state : OperatorState)
    (key_on : Bool) (channel_period channel_octave phase_offset : Nat)
    (overrides : Option OperatorOverrides) (p : Int → Bool)
    (h : ∀ x, envelope_update op overrides (effectivePhase state key_on)
      state.adsr_attenuation (effectiveTime state key_on) = some x → p x.1 = true) :
    (Operator.update tbl op state key_on channel_period channel_octave phase_offset
      overrides).all (fun s => p s.adsr_attenuation) = true := by
  unfold Operator.update
  rcases henv : envelope_update op overrides (effectivePhase state key_on)
    state.adsr_attenuation (effectiveTime state key_on) with _ | x
  · simp [henv]
  · simp only [henv, Option.map_some', Option.all_some]
    exact h x henv

/-- Every defined Decay/Release outcome is at least the incoming
attenuation, or is the sustain clamp value. -/
theorem decay_release_update_cases {op : Operator} {overrides : Option OperatorOverrides}
    {isDecay : Bool} {a : Int} {t : Nat} {x : Int × ADSRPhase}
    (h1 : a ≤ 511)
    (h : decay_release_update op overrides isDecay a t = some x) :
    a ≤ x.1 ∨ x.1 = (op.sustain_level : Int) * 32 := by
  unfold decay_release_update at h
  dsimp only at h
  rcases hstep : decay_release_step
      (if isDecay then op.decay_rate else op.release_rate) a t with _ | y
  · rw [hstep] at h
    simp at h
  · rw [hstep] at h
    rcases decay_release_step_le hstep with ⟨hay, _⟩
    simp only [Option.map_some', Option.some_inj] at h
    split_ifs at h <;> rw [← h] <;>
      first
        | exact Or.inr rfl
        | exact Or.inl (le_min hay h1)

/-- One `Operator::update` call with the key off and release rate 0 leaves
the envelope attenuation unchanged (and below 512). -/
theorem update_release_rate0 (tbl : Nat → LogSign) (op : Operator) (s : OperatorState)
    (channel_period channel_octave phase_offset : Nat)
    (overrides : Option OperatorOverrides)
    (hr : op.release_rate = 0) (h1 : s.adsr_attenuation ≤ 511) :
    ∃ s', Operator.update tbl op s false channel_period channel_octave phase_offset
      overrides = some s' ∧ s'.adsr_attenuation = s.adsr_attenuation := by
  have henv : envelope_update op overrides (effectivePhase s false)
      s.adsr_attenuation (effectiveTime s false) =
      some (s.adsr_attenuation, ADSRPhase.Release) := by
    show envelope_update op overrides ADSRPhase.Release s.adsr_attenuation 0 = _
    simp [envelope_update, decay_release_update, decay_release_step, hr,
      min_eq_left h1]
  unfold Operator.update
  dsimp only
  rw [henv]
  exact ⟨_, rfl, rfl⟩

/-- One `Operator::update` call with the key held, in Decay, with decay
rate 0 and attenuation strictly below the sustain threshold, leaves the
attenuation, the phase and the key latch unchanged. -/
theorem update_decay_rate0 (tbl : Nat → LogSign) (op : Operator) (s : OperatorState)
    (channel_period channel_octave phase_offset : Nat)
    (overrides : Option OperatorOverrides)
    (hd : op.decay_rate = 0) (hlast : s.last_key_on = true)
    (hph : s.adsr_phase = ADSRPhase.Decay)
    (hlt : s.adsr_attenuation < (op.sustain_level : Int) * 32)
    (h1 : s.adsr_attenuation ≤ 511) :
    ∃ s', Operator.update tbl op s true channel_period channel_octave phase_offset
      overrides = some s' ∧ s'.adsr_attenuation = s.adsr_attenuation ∧
      s'.last_key_on = true ∧ s'.adsr_phase = ADSRPhase.Decay := by
  have henv : envelope_update op overrides (effectivePhase s true)
      s.adsr_attenuation (effectiveTime s true) =
      some (s.adsr_attenuation, ADSRPhase.Decay) := by
    have hep : effectivePhase s true = ADSRPhase.Decay := by
      simp [effectivePhase, hlast, hph]
    rw [hep]
    simp [envelope_update, decay_release_update, decay_release_step, hd,
      min_eq_left h1, not_le.mpr hlt]
  unfold Operator.update
  dsimp only
  rw [henv]
  exact ⟨_, rfl, rfl, rfl, rfl⟩

/-- C3, amended.  In the Decay and Release phases, one call to
`Operator::update`, from an attenuation within [0, 511], never decreases
the envelope attenuation except that in Decay the exit check may clamp it
down to exactly `sustain_level << 5`; and with a governing rate of 0 the
attenuation is unchanged across any number of consecutive ticks — with the
key off and release rate 0 (Release), or with the key held in Decay below
the sustain threshold with decay rate 0. -/
theorem C3_decay_release_monotone (tbl : Nat → LogSign) (op : Operator)
    (state : OperatorState) (key_on : Bool)
    (channel_period channel_octave phase_offset : Nat)
    (overrides : Option OperatorOverrides) (n : Nat)
    (h1 : state.adsr_attenuation ≤ 511) :
    ((effectivePhase state key_on = ADSRPhase.Decay ∨
      effectivePhase state key_on = ADSRPhase.Release) →
      (Operator.update tbl op state key_on channel_period channel_octave phase_offset
        overrides).all (fun s => decide (state.adsr_attenuation ≤ s.adsr_attenuation ∨
          s.adsr_attenuation = (op.sustain_level : Int) * 32)) = true) ∧
    (op.release_rate = 0 →
      (updateIterate tbl op false channel_period channel_octave phase_offset overrides
        n state).map (fun s => s.adsr_attenuation) = some state.adsr_attenuation) ∧
    (op.decay_rate = 0 → state.last_key_on = true →
      state.adsr_phase = ADSRPhase.Decay →
      state.adsr_attenuation < (op.sustain_level : Int) * 32 →
      (updateIterate tbl op true channel_period channel_octave phase_offset overrides
        n state).map (fun s => s.adsr_attenuation) = some state.adsr_attenuation) := by
  refine ⟨?_, ?_, ?_⟩
  · intro hph
    refine update_all_adsr tbl op state key_on channel_period channel_octave
      phase_offset overrides
      (fun v => decide (state.adsr_attenuation ≤ v ∨
        v = (op.sustain_level : Int) * 32)) ?_
    intro x henv
    rcases hph with hph | hph <;> rw [hph] at henv <;>
      simp only [envelope_update] at henv <;>
      rcases decay_release_update_cases h1 henv with hcase | hcase <;>
      simp [hcase]
  · intro hr
    induction n generalizing state h1 with
    | zero => rfl
    | succ n ih =>
        obtain ⟨s', hs', heq⟩ := update_release_rate0 tbl op state channel_period
          channel_octave phase_offset overrides hr h1
        simp only [updateIterate, hs', Option.some_bind]
        rw [ih s' (by omega)]
        rw [heq]
  · intro hd hlast hph hlt
    induction n generalizing state h1 with
    | zero => rfl
    | succ n ih =>
        obtain ⟨s', hs', heq, hlast', hph'⟩ := update_decay_rate0 tbl op state
          channel_period channel_octave phase_offset overrides hd hlast hph hlt h1
        simp only [updateIterate, hs', Option.some_bind]
        rw [ih s' (by omega) hlast' hph' (by omega)]
        rw [heq]

/-- C3, witness: three Decay-phase ticks at decay rate 0 (and one
Decay-phase single-tick monotonicity check) from attenuation 10 with
sustain level 1 (sustain/release byte `0x10`). -/
theorem C3_decay_release_monotone_witness :
    ((effectivePhase decayState10 true = ADSRPhase.Decay ∨
      effectivePhase decayState10 true = ADSRPhase.Release) →
      (Operator.update testTable (testOperator.set_sustain_release 0x10)
        decayState10 true 0 0 0 none).all
        (fun s => decide (decayState10.adsr_attenuation ≤ s.adsr_attenuation ∨
          s.adsr_attenuation =
            ((testOperator.set_sustain_release 0x10).sustain_level : Int) * 32)) = true) ∧
    ((testOperator.set_sustain_release 0x10).release_rate = 0 →
      (updateIterate testTable (testOperator.set_sustain_release 0x10) false 0 0 0 none
        3 decayState10).map (fun s => s.adsr_attenuation) =
        some decayState10.adsr_attenuation) ∧
    ((testOperator.set_sustain_release 0x10).decay_rate = 0 →
      decayState10.last_key_on = true →
      decayState10.adsr_phase = ADSRPhase.Decay →
      decayState10.adsr_attenuation <
        ((testOperator.set_sustain_release 0x10).sustain_level : Int) * 32 →
      (updateIterate testTable (testOperator.set_sustain_release 0x10) true 0 0 0 none
        3 decayState10).map (fun s => s.adsr_attenuation) =
        some decayState10.adsr_attenuation) :=
  C3_decay_release_monotone testTable (testOperator.set_sustain_release 0x10)
    decayState10 true 0 0 0 none 3 (by decide)

/-- C3, counterexample.  In the Decay phase with decay rate 0 (no movement)
and sustain level 2 (sustain/release byte `0x20`), a state with envelope
attenuation 400 is clamped down to `2 << 5 = 64` by the Decay exit check —
one call to `Operator::update` in the Decay phase decreases the envelope
attenuation, and changes it even though the governing rate is 0. -/
theorem C3_clamp_decrease_counterexample :
    (Operator.update testTable (testOperator.set_sustain_release 0x20)
      { raw_phase := 0, attenuation := { logsin := 0, sign := 1 },
        adsr_phase := ADSRPhase.Decay, adsr_attenuation := 400,
        time_in_phase := 3, last_key_on := true } true 0 0 0 none).map
      (fun s => s.adsr_attenuation) = some 64 ∧
    (testOperator.set_sustain_release 0x20).decay_rate = 0 ∧
    (testOperator.set_sustain_release 0x20).sustain_level = 2 := by
  refine ⟨rfl, rfl, rfl⟩

/-- Lifting a per-outcome phase predicate through `Operator.update`. -/
theorem update_all_phase (tbl : Nat → LogSign) (op : Operator) (state : OperatorState)
    (key_on : Bool) (channel_period channel_octave phase_offset : Nat)
    (overrides : Option OperatorOverrides) (p : ADSRPhase → Bool)
    (h : ∀ x, envelope_update op overrides (effectivePhase state key_on)
      state.adsr_attenuation (effectiveTime state key_on) = some x → p x.2 = true) :
    (Operator.update tbl op state key_on channel_period channel_octave phase_offset
      overrides).all (fun s => p s.adsr_phase) = true := by
  unfold Operator.update
  rcases henv : envelope_update op overrides (effectivePhase state key_on)
    state.adsr_attenuation (effectiveTime state key_on) with _ | x
  · simp [henv]
  · simp only [henv, Option.map_some', Option.all_some]
    exact h x henv

/-- Every defined outcome of the Release-side Decay/Release logic is in the
Release phase. -/
theorem decay_release_update_false_phase {op : Operator}
    {overrides : Option OperatorOverrides} {a : Int} {t : Nat} {x : Int × ADSRPhase}
    (h : decay_release_update op overrides false a t = some x) :
    x.2 = ADSRPhase.Release := by
  unfold decay_release_update at h
  dsimp only at h
  rcases hstep : decay_release_step
      (if (false : Bool) then op.decay_rate else op.release_rate) a t with _ | y <;>
    rw [hstep] at h
  · simp at h
  · simp only [Option.map_some', Option.some_inj] at h
    simp only [Bool.false_eq_true, false_and, if_false] at h
    rw [← h]

/-- C4, amended.  A call to `Operator::update` with key_on true when the
stored last key-on level was false overwrites the prior phase with Attack
and the tick counter with 0 before the envelope step — so its outcome is
independent of the prior phase and tick counter — and after the full call
the phase is Attack with the tick counter at 1, unless the Attack step ran
to completion within the same call, leaving Decay with tick counter 0 and
attenuation 0.  Every call with key_on false leaves the phase at Release. -/
theorem C4_key_on_logic (tbl : Nat → LogSign) (op : Operator) (raw : Nat)
    (att : LogSign) (ph : ADSRPhase) (a : Int) (t : Nat)
    (channel_period channel_octave phase_offset : Nat)
    (overrides : Option OperatorOverrides) :
    (Operator.update tbl op ⟨raw, att, ph, a, t, false⟩ true channel_period
      channel_octave phase_offset overrides =
     Operator.update tbl op ⟨raw, att, ADSRPhase.Attack, a, 0, false⟩ true
      channel_period channel_octave phase_offset overrides) ∧
    ((Operator.update tbl op ⟨raw, att, ph, a, t, false⟩ true channel_period
      channel_octave phase_offset overrides).map
      (fun s => (s.adsr_phase, s.time_in_phase, s.adsr_attenuation)) =
      some (if op.attack_rate > 60 ∨ attack_step op.attack_rate a 0 ≤ 0
        then (ADSRPhase.Decay, 0, 0)
        else (ADSRPhase.Attack, 1, attack_step op.attack_rate a 0))) ∧
    (∀ st : OperatorState,
      (Operator.update tbl op st false channel_period channel_octave phase_offset
        overrides).all (fun s => decide (s.adsr_phase = ADSRPhase.Release)) = true) := by
  refine ⟨rfl, ?_, ?_⟩
  · have hmap := update_phase_time_adsr tbl op ⟨raw, att, ph, a, t, false⟩ true
      channel_period channel_octave phase_offset overrides
    have hep : effectivePhase ⟨raw, att, ph, a, t, false⟩ true = ADSRPhase.Attack := rfl
    have het : effectiveTime ⟨raw, att, ph, a, t, false⟩ true = 0 := rfl
    rw [hep, het] at hmap
    rw [hmap]
    by_cases hc : op.attack_rate > 60 ∨ attack_step op.attack_rate a 0 ≤ 0
    · rw [if_pos hc]
      simp only [envelope_update, if_pos hc, Option.map_some']
      simp
    · rw [if_neg hc]
      simp only [envelope_update, if_neg hc, Option.map_some']
      simp
  · intro st
    refine update_all_phase tbl op st false channel_period channel_octave phase_offset
      overrides (fun q => decide (q = ADSRPhase.Release)) ?_
    intro x henv
    have hep : effectivePhase st false = ADSRPhase.Release := rfl
    rw [hep] at henv
    simp only [envelope_update] at henv
    simp [decay_release_update_false_phase henv]

/-- C4, counterexample.  A key-on edge (stored last key-on false, key_on
true) with envelope attenuation already 0 leaves the call in the Decay
phase, not Attack: the key-on logic sets Attack, but the Attack envelope
step of the same call immediately transitions to Decay. -/
theorem C4_edge_to_decay_counterexample :
    (Operator.update testTable testOperator
      { raw_phase := 0, attenuation := { logsin := 0, sign := 1 },
        adsr_phase := ADSRPhase.Release, adsr_attenuation := 0,
        time_in_phase := 9, last_key_on := false } true 0 0 0 none).map
      (fun s => s.adsr_phase) = some ADSRPhase.Decay := by
  rfl

/-- C5.  One call to `Operator::update` composes the final output
attenuation by exactly two laws, selected by whether an overrides record is
supplied: with overrides, `logsin = waveform magnitude + envelope
attenuation + override attenuation * 16`; without, `logsin = waveform
magnitude + envelope attenuation * 8 + static attenuation * 32` — where
the waveform magnitude is the table value at the folded phase and the
envelope attenuation is the post-step value. -/
theorem C5_output_composition (tbl : Nat → LogSign) (op : Operator)
    (state : OperatorState) (key_on : Bool)
    (channel_period channel_octave phase_offset : Nat) :
    (∀ ovr : OperatorOverrides,
      (Operator.update tbl op state key_on channel_period channel_octave phase_offset
        (some ovr)).all
        (fun s => decide (s.attenuation.logsin =
          (tbl (maskedPhase op (rawPhaseNext op state.raw_phase channel_period
            channel_octave) phase_offset)).logsin +
          s.adsr_attenuation + (ovr.attenuation : Int) * 16)) = true) ∧
    ((Operator.update tbl op state key_on channel_period channel_octave phase_offset
      none).all
      (fun s => decide (s.attenuation.logsin =
        (tbl (maskedPhase op (rawPhaseNext op state.raw_phase channel_period
          channel_octave) phase_offset)).logsin +
        s.adsr_attenuation * 8 + (op.attenuation : Int) * 32)) = true) := by
  constructor
  · intro ovr
    unfold Operator.update
    rcases henv : envelope_update op (some ovr) (effectivePhase state key_on)
      state.adsr_attenuation (effectiveTime state key_on) with _ | x
    · simp [henv]
    · simp [henv]
      ring
  · unfold Operator.update
    rcases henv : envelope_update op none (effectivePhase state key_on)
      state.adsr_attenuation (effectiveTime state key_on) with _ | x
    · simp [henv]
    · simp [henv]
      ring

/-- C6, amended.  `Operator::is_audible` returns false exactly when the
envelope phase is Release and the static (or, with overrides, the override)
attenuation is at its maximum representable value, OR — in any phase — the
envelope attenuation equals the terminal sentinel 511; it returns true in
every other state. -/
theorem C6_is_audible_characterisation (op : Operator) (state : OperatorState)
    (overrides : Option OperatorOverrides) :
    Operator.is_audible op state overrides = false ↔
      ((state.adsr_phase = ADSRPhase.Release ∧
        (match overrides with
         | some o => o.attenuation = 0xf
         | none => op.attenuation = 0x3f)) ∨
       state.adsr_attenuation = 511) := by
  unfold Operator.is_audible
  by_cases hph : state.adsr_phase = ADSRPhase.Release <;>
    cases overrides <;>
    simp [hph] <;>
    tauto

/-- C7.  The per-tick raw-phase increment of `Operator::update` is
`multipliers[frequency_multiple] * channel_period << channel_octave`
(accumulated modulo `2 ^ 32`), it is linear in
`channel_period << channel_octave`, and doubling the channel period doubles
the increment. -/
theorem C7_phase_accumulation (tbl : Nat → LogSign) (op : Operator)
    (state : OperatorState) (key_on : Bool)
    (channel_period channel_octave phase_offset : Nat)
    (overrides : Option OperatorOverrides)
    (_hfm : op.frequency_multiple < 16) :
    ((Operator.update tbl op state key_on channel_period channel_octave phase_offset
      overrides).all
      (fun s => decide (s.raw_phase =
        (state.raw_phase + phaseDelta op channel_period channel_octave) % 2 ^ 32)) =
      true) ∧
    phaseDelta op channel_period channel_octave =
      multipliers.getD op.frequency_multiple 0 * (channel_period <<< channel_octave) ∧
    phaseDelta op (2 * channel_period) channel_octave =
      2 * phaseDelta op channel_period channel_octave := by
  refine ⟨?_, ?_, ?_⟩
  · unfold Operator.update
    rcases henv : envelope_update op overrides (effectivePhase state key_on)
      state.adsr_attenuation (effectiveTime state key_on) with _ | x
    · simp [henv]
    · simp [henv, rawPhaseNext, phaseDelta]
  · unfold phaseDelta
    rw [Nat.shiftLeft_eq, Nat.shiftLeft_eq]
    ring
  · unfold phaseDelta
    rw [Nat.shiftLeft_eq, Nat.shiftLeft_eq]
    ring

/-- C7, witness: a concrete tick with frequency multiple 3 (mode byte
`0x03`), channel period 100, octave 2. -/
theorem C7_phase_accumulation_witness :
    ((Operator.update testTable
      (testOperator.set_am_vibrato_hold_sustain_ksr_multiple 0x03) decayState10 true
      100 2 0 none).all
      (fun s => decide (s.raw_phase =
        (decayState10.raw_phase +
          phaseDelta (testOperator.set_am_vibrato_hold_sustain_ksr_multiple 0x03)
            100 2) % 2 ^ 32)) = true) ∧
    phaseDelta (testOperator.set_am_vibrato_hold_sustain_ksr_multiple 0x03) 100 2 =
      multipliers.getD
        (testOperator.set_am_vibrato_hold_sustain_ksr_multiple 0x03).frequency_multiple
        0 * (100 <<< 2) ∧
    phaseDelta (testOperator.set_am_vibrato_hold_sustain_ksr_multiple 0x03)
      (2 * 100) 2 =
      2 * phaseDelta (testOperator.set_am_vibrato_hold_sustain_ksr_multiple 0x03)
        100 2 :=
  C7_phase_accumulation testTable
    (testOperator.set_am_vibrato_hold_sustain_ksr_multiple 0x03) decayState10 true
    100 2 0 none (by decide)

/-- C6, counterexample.  `Operator::is_audible` returns false for a state in
the Attack phase whose envelope attenuation is 511: the claimed
characterisation (false exactly in Release with maximal static attenuation
and envelope attenuation 511; true in every other state) fails. -/
theorem C6_not_release_counterexample :
    Operator.is_audible testOperator
      { raw_phase := 0, attenuation := { logsin := 0, sign := 1 },
        adsr_phase := ADSRPhase.Attack, adsr_attenuation := 511,
        time_in_phase := 0, last_key_on := true } none = false ∧
    ADSRPhase.Attack ≠ ADSRPhase.Release := by
  constructor
  · rfl
  · simp

/-- C10.  The failing input made concrete: the sustain/release byte `0x03`
decodes to release rate 12, and one Release-phase tick of
`Operator::update` at that rate is undefined — the source computes
`sample_length = 1 << ((12 >> 2) - 4) = 1 << -1`, a shift by a negative
amount, contradicting its own rule that a rate of 3 (after `>> 2`) means
an increase of 1 per cycle. -/
theorem C10_negative_shift_eval :
    (testOperator.set_sustain_release 0x03).release_rate = 12 ∧
    decay_release_step 12 200 5 = none ∧
    Operator.update testTable (testOperator.set_sustain_release 0x03)
      { raw_phase := 0, attenuation := { logsin := 0, sign := 1 },
        adsr_phase := ADSRPhase.Release, adsr_attenuation := 200,
        time_in_phase := 5, last_key_on := false } false 0 0 0 none = none := by
  refine ⟨rfl, rfl, rfl⟩

/-- `setup_fixed_instrument` changes nothing but the operator array. -/
theorem setup_fixed_instrument_frame (s : OPLL) (number : Nat) (data : Nat → Nat) :
    (s.setup_fixed_instrument number data).channels = s.channels ∧
    (s.setup_fixed_instrument number data).custom_instrument = s.custom_instrument ∧
    (s.setup_fixed_instrument number data).rhythm_overrides = s.rhythm_overrides ∧
    (s.setup_fixed_instrument number data).depth_rhythm_control =
      s.depth_rhythm_control ∧
    (s.setup_fixed_instrument number data).audio_divider = s.audio_divider ∧
    ∀ i, i ≠ number * 2 → i ≠ number * 2 + 1 →
      (s.setup_fixed_instrument number data).operators i = s.operators i := by
  refine ⟨rfl, rfl, rfl, rfl, rfl, ?_⟩
  intro i h1 h2
  simp [OPLL.setup_fixed_instrument, h1, h2]

/-- C8.  Applying a queued write to an address 0–7 mutates only the stored
custom-instrument byte at that address (set to the written value) and the
two operators of the custom instrument (slots 0 and 1); operator slots 2
through 37, all channel state, the rhythm overrides, the rhythm-control
register and the audio divider are unchanged. -/
theorem C8_custom_instrument_write (s : OPLL) (address value : Nat)
    (h : address < 8) :
    (s.apply_register_write address value).custom_instrument address = value ∧
    (∀ j, j ≠ address →
      (s.apply_register_write address value).custom_instrument j =
        s.custom_instrument j) ∧
    (∀ i, 2 ≤ i →
      (s.apply_register_write address value).operators i = s.operators i) ∧
    (s.apply_register_write address value).channels = s.channels ∧
    (s.apply_register_write address value).rhythm_overrides = s.rhythm_overrides ∧
    (s.apply_register_write address value).depth_rhythm_control =
      s.depth_rhythm_control ∧
    (s.apply_register_write address value).audio_divider = s.audio_divider := by
  unfold OPLL.apply_register_write
  rw [if_pos h]
  dsimp only
  refine ⟨?_, ?_, ?_, ?_, ?_, ?_, ?_⟩
  · simp [OPLL.setup_fixed_instrument]
  · intro j hj
    simp [OPLL.setup_fixed_instrument, hj]
  · intro i hi
    simp [OPLL.setup_fixed_instrument, show i ≠ 0 by omega, show i ≠ 1 by omega]
  · rfl
  · rfl
  · rfl
  · rfl

/-- C8, witness: writing value `0xab` to custom-instrument address 3 of a
concrete chip state. -/
theorem C8_custom_instrument_write_witness :
    (testOPLL.apply_register_write 3 0xab).custom_instrument 3 = 0xab ∧
    (testOPLL.apply_register_write 3 0xab).operators 17 = testOPLL.operators 17 ∧
    (testOPLL.apply_register_write 3 0xab).channels = testOPLL.channels :=
  ⟨(C8_custom_instrument_write testOPLL 3 0xab (by decide)).1,
   (C8_custom_instrument_write testOPLL 3 0xab (by decide)).2.2.1 17 (by decide),
   (C8_custom_instrument_write testOPLL 3 0xab (by decide)).2.2.2.1⟩

/-- C9.  Constructing an OPLL succeeds exactly for audio dividers at most 4
(the stored divider then equals the request); any larger divider fails fast
before any state is built. -/
theorem C9_audio_divider_precondition (audio_divider : Nat) (is_vrc7 : Bool) :
    (OPLL.make audio_divider is_vrc7).map OPLL.audio_divider =
      if audio_divider ≤ 4 then some audio_divider else none := by
  by_cases h : audio_divider ≤ 4
  · rw [if_pos h]
    unfold OPLL.make
    rw [if_pos h]
    dsimp only
    simp only [Option.map_some', Option.some_inj]
    have hfold : ∀ (l : List Nat) (f : Nat → Nat → Nat) (s : OPLL),
        (l.foldl (fun acc c => acc.setup_fixed_instrument (c + 1) (fun j => f c j))
          s).audio_divider = s.audio_divider := by
      intro l
      induction l with
      | nil => intro f s; rfl
      | cons c cs ih => intro f s; exact ih f _
    have hfold2 : ∀ (l : List Nat) (f : Nat → Nat → Nat) (s : OPLL),
        (l.foldl (fun acc c => acc.setup_fixed_instrument (c + 16) (fun j => f c j))
          s).audio_divider = s.audio_divider := by
      intro l
      induction l with
      | nil => intro f s; rfl
      | cons c cs ih => intro f s; exact ih f _
    rw [hfold2, hfold]
  · rw [if_neg h]
    unfold OPLL.make
    rw [if_neg h]
    rfl

end Yamaha.OPL
